import Mathlib

/-!
Shallow embedding of the CASE_TD3 agent (file: DDPG & TD3/CASE_TD3.py).

The agent is a TD3 variant whose update reweights cross-agent experience by a
symmetrized KL divergence between an empirical Gaussian fitted to action
residuals and a fixed reference Gaussian.  Neural networks and the optimizer
are external collaborators; they are modelled as abstract evaluation and step
functions over flat parameter lists, while every arithmetic step of the
update orchestration (target computation, reweighting, losses, cadence,
soft sync, checkpointing) is embedded concretely over the reals.  The
exception-to-fallback pattern of the reweighting block is modelled by an
Option value: none corresponds to the except branch of the source.
-/

namespace CASE

noncomputable section

/-- Flattened parameter vector of a network (the source iterates over
parameter tensors; we flatten them into one list of scalars). -/
abbrev Params := List ℝ

/-- Constructor arguments of CASE_TD3 that the update uses. -/
structure Config where
  max_action : ℝ
  agent_id : ℤ
  discount : ℝ
  tau : ℝ
  policy_noise : ℝ
  noise_clip : ℝ
  policy_freq : ℕ
  kl_div_var : ℝ

/-- One row of a sampled batch: replay_buffer.sample yields parallel tensors
(state, action, next_state, reward, agent_id, not_done). -/
structure Transition (S : Type) (d : ℕ) where
  state : S
  action : Fin d → ℝ
  next_state : S
  reward : ℝ
  agent_id : ℤ
  not_done : ℝ

/-- torch.clamp(x, lo, hi) = min(max(x, lo), hi). -/
def clampR (lo hi x : ℝ) : ℝ := min (max x lo) hi

variable {S : Type} {d : ℕ}
variable (actorEval : Params → S → Fin d → ℝ)
variable (criticEval : Params → S → (Fin d → ℝ) → ℝ × ℝ)

/-- Critic.Q1: the first head of the critic; its code path is identical to
the first component of Critic.forward. -/
def criticQ1 (θ : Params) (s : S) (a : Fin d → ℝ) : ℝ := (criticEval θ s a).1

/-- The smoothed target action:
(actor_target(next_state) + (g * policy_noise).clamp(-noise_clip, noise_clip))
  .clamp(-max_action, max_action),
where g is the standard Gaussian draw (randn_like). -/
def nextActionOf (cfg : Config) (θat : Params) (t : Transition S d)
    (g : Fin d → ℝ) : Fin d → ℝ :=
  fun i => clampR (-cfg.max_action) cfg.max_action
    (actorEval θat t.next_state i +
      clampR (-cfg.noise_clip) cfg.noise_clip (g i * cfg.policy_noise))

/-- The bootstrap target
reward + not_done * discount * min(target_Q1, target_Q2), with the target
critic pair evaluated at (next_state, next_action). -/
def targetQ (cfg : Config) (θat θct : Params) (t : Transition S d)
    (g : Fin d → ℝ) : ℝ :=
  t.reward + t.not_done * cfg.discount *
    min (criticEval θct t.next_state (nextActionOf actorEval cfg θat t g)).1
        (criticEval θct t.next_state (nextActionOf actorEval cfg θat t g)).2

/-- The external sub-batch: rows whose agent_id differs from the agent's own
(torch.where(agent_id != self.agent_id)). -/
def extList (cfg : Config) (batch : List (Transition S d)) :
    List (Transition S d) :=
  batch.filter (fun t => t.agent_id ≠ cfg.agent_id)

/-- Action residuals of the external rows: stored action minus the current
policy's action at the stored state (diff_action_batch). -/
def residualsOf (cfg : Config) (θa : Params) (batch : List (Transition S d)) :
    List (Fin d → ℝ) :=
  (extList cfg batch).map (fun t => fun i => t.action i - actorEval θa t.state i)

/-- torch.mean(diff_action_batch, dim=0): coordinatewise sample mean. -/
def empMean (rs : List (Fin d → ℝ)) : Fin d → ℝ :=
  fun i => (rs.map (fun r => r i)).sum / rs.length

/-- cov = (X transposed) * X / len(ext_idx) with X the centered residuals:
the biased empirical covariance (divide by the count, not count-1). -/
def empCov (rs : List (Fin d → ℝ)) : Matrix (Fin d) (Fin d) ℝ :=
  Matrix.of fun i j =>
    (rs.map (fun r => (r i - empMean rs i) * (r j - empMean rs j))).sum /
      rs.length

/-- Covariance of the fixed reference Gaussian:
torch.eye(action_dim) * kl_div_var. -/
def refCov (d : ℕ) (v : ℝ) : Matrix (Fin d) (Fin d) ℝ :=
  v • (1 : Matrix (Fin d) (Fin d) ℝ)

/-- Closed form of the KL divergence KL(N(m0, S0) over N(m1, S1)) between two
multivariate Gaussians, the value torch.distributions.kl.kl_divergence
computes for a pair of MultivariateNormal distributions. -/
def klMVN (m0 : Fin d → ℝ) (S0 : Matrix (Fin d) (Fin d) ℝ)
    (m1 : Fin d → ℝ) (S1 : Matrix (Fin d) (Fin d) ℝ) : ℝ :=
  ((S1⁻¹ * S0).trace +
      Matrix.dotProduct (m1 - m0) (S1⁻¹.mulVec (m1 - m0)) - (d : ℝ) +
      Real.log (S1.det / S0.det)) / 2

/-- Symmetrized divergence:
(kl_divergence(emp, ref) + kl_divergence(ref, emp)) / 2. -/
def symKL (m0 : Fin d → ℝ) (S0 : Matrix (Fin d) (Fin d) ℝ)
    (m1 : Fin d → ℝ) (S1 : Matrix (Fin d) (Fin d) ℝ) : ℝ :=
  (klMVN m0 S0 m1 S1 + klMVN m1 S1 m0 S0) / 2

open Classical in
/-- The try block of update_parameters: fit a Gaussian to the external
residuals and return exp(-symmetrized KL) against the reference Gaussian.
MultivariateNormal construction succeeds exactly when there is at least one
residual (an empty batch yields a NaN mean in torch) and the empirical
covariance is positive definite (otherwise the Cholesky factorization, or
argument validation, raises); every raise lands in the except branch,
modelled by none. -/
def reweight (cfg : Config) (θa : Params) (batch : List (Transition S d)) :
    Option ℝ :=
  let rs := residualsOf actorEval cfg θa batch
  if 0 < rs.length ∧ (empCov rs).PosDef then
    some (Real.exp (-(symKL (empMean rs) (empCov rs)
      (fun _ => (0 : ℝ)) (refCov d cfg.kl_div_var))))
  else none

/-- Per-row trust weight: kl_weights starts as ones; rows at ext_idx are set
to the shared scalar on success and to 0 in the except branch. -/
def wOf (cfg : Config) (θa : Params) (batch : List (Transition S d))
    (t : Transition S d) : ℝ :=
  if t.agent_id ≠ cfg.agent_id then
    (reweight actorEval cfg θa batch).getD 0
  else 1

/-- The full weight vector kl_weights. -/
def weightVec (cfg : Config) (θa : Params) (batch : List (Transition S d)) :
    List ℝ :=
  batch.map (wOf actorEval cfg θa batch)

/-- torch.sum(kl_weights). -/
def sumW (cfg : Config) (θa : Params) (batch : List (Transition S d)) : ℝ :=
  (weightVec actorEval cfg θa batch).sum

/-- critic_loss = sum(kl_weights * ((q1 - y)^2 + (q2 - y)^2)) / sum(kl_weights),
with y the bootstrap target (F.mse_loss with reduction none is the
elementwise squared error).  gs carries the standard Gaussian draws, one
per row. -/
def criticLoss (cfg : Config) (θa θat θc θct : Params)
    (batch : List (Transition S d)) (gs : List (Fin d → ℝ)) : ℝ :=
  ((batch.zip gs).map (fun p =>
      wOf actorEval cfg θa batch p.1 *
        (((criticEval θc p.1.state p.1.action).1 -
            targetQ actorEval criticEval cfg θat θct p.1 p.2) ^ 2 +
         ((criticEval θc p.1.state p.1.action).2 -
            targetQ actorEval criticEval cfg θat θct p.1 p.2) ^ 2))).sum /
    sumW actorEval cfg θa batch

/-- actor_loss = -(kl_weights * critic.Q1(state, actor(state))).sum()
                  / torch.sum(kl_weights); θa is the live actor, which is
both the policy being improved and the policy the weights were computed
from, and θc is the live critic after its optimizer step. -/
def actorLoss (cfg : Config) (θa θc : Params)
    (batch : List (Transition S d)) : ℝ :=
  -(((batch.map (fun t =>
      wOf actorEval cfg θa batch t *
        criticQ1 criticEval θc t.state (actorEval θa t.state))).sum) /
    sumW actorEval cfg θa batch)

/-- Mutable state of a CASE_TD3 instance: live nets, optimizer states,
target nets and the iteration counter. -/
structure AgentState where
  actor : Params
  actor_opt : Params
  actor_target : Params
  critic : Params
  critic_opt : Params
  critic_target : Params
  total_it : ℕ

/-- One pass of the soft-update loop:
target_param.data.copy_(tau * param.data + (1 - tau) * target_param.data). -/
def softSync (tau : ℝ) (live target : List ℝ) : List ℝ :=
  List.zipWith (fun p tp => tau * p + (1 - tau) * tp) live target

variable (actorStep criticStep : Params → Params → ℝ → Params × Params)

/-- update_parameters: increment total_it, take one critic optimizer step on
the weighted critic loss, and every policy_freq-th call also take one actor
optimizer step on the weighted actor loss and soft-sync both target
networks.  The optimizer is the abstract capability
(params, optimizer state, loss) to (params, optimizer state). -/
def updateParameters (cfg : Config) (st : AgentState)
    (batch : List (Transition S d)) (gs : List (Fin d → ℝ)) : AgentState :=
  let cl := criticLoss actorEval criticEval cfg st.actor st.actor_target
    st.critic st.critic_target batch gs
  let cs := criticStep st.critic st.critic_opt cl
  if (st.total_it + 1) % cfg.policy_freq = 0 then
    let al := actorLoss actorEval criticEval cfg st.actor cs.1 batch
    let ap := actorStep st.actor st.actor_opt al
    { actor := ap.1
      actor_opt := ap.2
      actor_target := softSync cfg.tau ap.1 st.actor_target
      critic := cs.1
      critic_opt := cs.2
      critic_target := softSync cfg.tau cs.1 st.critic_target
      total_it := st.total_it + 1 }
  else
    { st with critic := cs.1, critic_opt := cs.2, total_it := st.total_it + 1 }

/-- The four blobs written by save: actor weights, actor optimizer state,
critic weights, critic optimizer state. -/
structure Checkpoint where
  actor : Params
  actor_opt : Params
  critic : Params
  critic_opt : Params

/-- save(file_name): serialize the four state dicts. -/
def save (st : AgentState) : Checkpoint :=
  ⟨st.actor, st.actor_opt, st.critic, st.critic_opt⟩

/-- load(filename): restore the four blobs and rebuild both target networks
as deep copies of the freshly loaded live networks; total_it untouched. -/
def load (st : AgentState) (ck : Checkpoint) : AgentState :=
  { st with
      actor := ck.actor
      actor_opt := ck.actor_opt
      actor_target := ck.actor
      critic := ck.critic
      critic_opt := ck.critic_opt
      critic_target := ck.critic }

/-- nn.Linear: an affine map given by a weight matrix and a bias vector. -/
structure LinearLayer (nin nout : ℕ) where
  weight : Fin nout → Fin nin → ℝ
  bias : Fin nout → ℝ

/-- Application of a linear layer. -/
def LinearLayer.apply {nin nout : ℕ} (l : LinearLayer nin nout)
    (x : Fin nin → ℝ) : Fin nout → ℝ :=
  fun o => (∑ i, l.weight o i * x i) + l.bias o

/-- F.relu. -/
def relu (x : ℝ) : ℝ := max x 0

/-- The Actor network: two hidden layers of width 256. -/
structure ActorNet (state_dim action_dim : ℕ) where
  l1 : LinearLayer state_dim 256
  l2 : LinearLayer 256 256
  l3 : LinearLayer 256 action_dim
  max_action : ℝ

/-- Actor.forward:
max_action * tanh(l3(relu(l2(relu(l1(state)))))). -/
def ActorNet.forward {sd ad : ℕ} (A : ActorNet sd ad) (s : Fin sd → ℝ) :
    Fin ad → ℝ :=
  let a1 := fun i => relu (A.l1.apply s i)
  let a2 := fun i => relu (A.l2.apply a1 i)
  fun i => A.max_action * Real.tanh (A.l3.apply a2 i)

/-- select_action: reshape the state to a one-row batch, run the actor and
flatten back to a plain vector; numerically the actor output itself. -/
def selectAction {sd ad : ℕ} (A : ActorNet sd ad) (s : Fin sd → ℝ) :
    Fin ad → ℝ :=
  A.forward s

/-! ### Concrete probe instances used by the closed witness theorems -/

/-- A probe actor network: one-dimensional, all-zero weights, max_action 1. -/
def probeActor : ActorNet 1 1 :=
  ⟨⟨fun _ _ => 0, fun _ => 0⟩, ⟨fun _ _ => 0, fun _ => 0⟩,
   ⟨fun _ _ => 0, fun _ => 0⟩, 1⟩

/-- A probe configuration: agent 0, one-dimensional action space. -/
def cfg0 : Config :=
  { max_action := 1, agent_id := 0, discount := 99 / 100, tau := 1,
    policy_noise := 2 / 10, noise_clip := 1 / 2, policy_freq := 2,
    kl_div_var := 15 / 100 }

/-- A probe abstract actor evaluator (constant zero policy). -/
def probeAEv : Params → Unit → Fin 1 → ℝ := fun _ _ _ => 0

/-- A probe abstract critic evaluator (constant zero twin values). -/
def probeCEv : Params → Unit → (Fin 1 → ℝ) → ℝ × ℝ := fun _ _ _ => (0, 0)

/-- A probe optimizer step that visibly changes every parameter. -/
def probeStep : Params → Params → ℝ → Params × Params :=
  fun p o _ => (p.map (fun x => x + 1), o)

/-- A probe agent state whose counter makes the next call a cadence call. -/
def st0 : AgentState := ⟨[0], [0], [0], [0], [0], [0], 1⟩

/-- A batch with a single self transition (agent_id 0). -/
def batchSelf : List (Transition Unit 1) := [⟨(), fun _ => 0, (), 0, 0, 1⟩]

/-- A batch with a single external transition (agent_id 1): its single
residual centers to zero, so the empirical covariance is singular. -/
def batchExt1 : List (Transition Unit 1) := [⟨(), fun _ => 1, (), 0, 1, 1⟩]

/-- A batch with two external transitions whose residuals differ, giving a
positive-definite one-dimensional empirical covariance. -/
def batchExt2 : List (Transition Unit 1) :=
  [⟨(), fun _ => 0, (), 0, 1, 1⟩, ⟨(), fun _ => 2, (), 0, 1, 1⟩]

/-! ### Helper lemmas -/

theorem abs_tanh_le_one (x : ℝ) : |Real.tanh x| ≤ 1 := by
  rw [Real.tanh_eq_sinh_div_cosh, abs_div, abs_of_pos (Real.cosh_pos x),
    div_le_one (Real.cosh_pos x), abs_le]
  constructor
  · linarith [Real.cosh_add_sinh x, (Real.exp_pos x).le]
  · linarith [Real.cosh_sub_sinh x, (Real.exp_pos (-x)).le]

theorem posDef_fin_one_iff (M : Matrix (Fin 1) (Fin 1) ℝ) :
    M.PosDef ↔ 0 < M 0 0 := by
  constructor
  · intro hM
    have hx : (fun _ : Fin 1 => (1 : ℝ)) ≠ 0 := by
      intro hc
      have := congrFun hc 0
      simp at this
    have h := hM.2 (fun _ => 1) hx
    simpa [Matrix.dotProduct, Matrix.mulVec, Fin.sum_univ_one] using h
  · intro h0
    have hdiag : M = Matrix.diagonal (fun _ => M 0 0) := by
      ext i j
      fin_cases i
      fin_cases j
      simp [Matrix.diagonal]
    rw [hdiag]
    exact Matrix.PosDef.diagonal (fun _ => h0)

theorem zipWith_right_of_length_eq (live target : List ℝ)
    (h : live.length = target.length) :
    List.zipWith (fun _ tp => tp) live target = target := by
  induction live generalizing target with
  | nil =>
    cases target with
    | nil => rfl
    | cons y ys => simp at h
  | cons x xs ih =>
    cases target with
    | nil => simp at h
    | cons y ys =>
      simp only [List.zipWith_cons_cons, List.cons.injEq, true_and]
      exact ih ys (by simpa using h)

theorem zipWith_left_of_length_eq (live target : List ℝ)
    (h : live.length = target.length) :
    List.zipWith (fun p _ => p) live target = live := by
  induction live generalizing target with
  | nil => rfl
  | cons x xs ih =>
    cases target with
    | nil => simp at h
    | cons y ys =>
      simp only [List.zipWith_cons_cons, List.cons.injEq, true_and]
      exact ih ys (by simpa using h)

theorem updateParameters_eq_pos (cfg : Config) (st : AgentState)
    (batch : List (Transition S d)) (gs : List (Fin d → ℝ))
    (h : (st.total_it + 1) % cfg.policy_freq = 0) :
    updateParameters actorEval criticEval actorStep criticStep cfg st batch gs =
      { actor := (actorStep st.actor st.actor_opt
          (actorLoss actorEval criticEval cfg st.actor
            (criticStep st.critic st.critic_opt
              (criticLoss actorEval criticEval cfg st.actor st.actor_target
                st.critic st.critic_target batch gs)).1 batch)).1
        actor_opt := (actorStep st.actor st.actor_opt
          (actorLoss actorEval criticEval cfg st.actor
            (criticStep st.critic st.critic_opt
              (criticLoss actorEval criticEval cfg st.actor st.actor_target
                st.critic st.critic_target batch gs)).1 batch)).2
        actor_target := softSync cfg.tau
          (actorStep st.actor st.actor_opt
            (actorLoss actorEval criticEval cfg st.actor
              (criticStep st.critic st.critic_opt
                (criticLoss actorEval criticEval cfg st.actor st.actor_target
                  st.critic st.critic_target batch gs)).1 batch)).1
          st.actor_target
        critic := (criticStep st.critic st.critic_opt
          (criticLoss actorEval criticEval cfg st.actor st.actor_target
            st.critic st.critic_target batch gs)).1
        critic_opt := (criticStep st.critic st.critic_opt
          (criticLoss actorEval criticEval cfg st.actor st.actor_target
            st.critic st.critic_target batch gs)).2
        critic_target := softSync cfg.tau
          (criticStep st.critic st.critic_opt
            (criticLoss actorEval criticEval cfg st.actor st.actor_target
              st.critic st.critic_target batch gs)).1
          st.critic_target
        total_it := st.total_it + 1 } := by
  simp only [updateParameters]
  rw [if_pos h]

theorem updateParameters_eq_neg (cfg : Config) (st : AgentState)
    (batch : List (Transition S d)) (gs : List (Fin d → ℝ))
    (h : ¬(st.total_it + 1) % cfg.policy_freq = 0) :
    updateParameters actorEval criticEval actorStep criticStep cfg st batch gs =
      { st with
          critic := (criticStep st.critic st.critic_opt
            (criticLoss actorEval criticEval cfg st.actor st.actor_target
              st.critic st.critic_target batch gs)).1
          critic_opt := (criticStep st.critic st.critic_opt
            (criticLoss actorEval criticEval cfg st.actor st.actor_target
              st.critic st.critic_target batch gs)).2
          total_it := st.total_it + 1 } := by
  simp only [updateParameters]
  rw [if_neg h]

theorem sum_map_pos_iff {α : Type*} (f : α → ℝ) (l : List α)
    (h : ∀ a ∈ l, 0 ≤ f a) :
    0 < (l.map f).sum ↔ ∃ a ∈ l, 0 < f a := by
  induction l with
  | nil => simp
  | cons x xs ih =>
    have hx : 0 ≤ f x := h x (List.mem_cons_self x xs)
    have hxs : ∀ a ∈ xs, 0 ≤ f a := fun a ha => h a (List.mem_cons_of_mem x ha)
    have hs : 0 ≤ (xs.map f).sum := by
      apply List.sum_nonneg
      intro y hy
      obtain ⟨a, ha, rfl⟩ := List.mem_map.mp hy
      exact hxs a ha
    simp only [List.map_cons, List.sum_cons, List.mem_cons]
    constructor
    · intro hpos
      by_cases hfx : 0 < f x
      · exact ⟨x, Or.inl rfl, hfx⟩
      · have hfx0 : f x = 0 := le_antisymm (not_lt.mp hfx) hx
        rw [hfx0, zero_add] at hpos
        obtain ⟨a, ha, hfa⟩ := (ih hxs).mp hpos
        exact ⟨a, Or.inr ha, hfa⟩
    · rintro ⟨a, rfl | ha, hfa⟩
      · linarith
      · have hrest : 0 < (xs.map f).sum := (ih hxs).mpr ⟨a, ha, hfa⟩
        linarith

theorem reweight_some_pos (cfg : Config) (θa : Params)
    (batch : List (Transition S d)) (w : ℝ)
    (h : reweight actorEval cfg θa batch = some w) : 0 < w := by
  simp only [reweight] at h
  split at h
  · rw [Option.some.injEq] at h
    rw [← h]
    exact Real.exp_pos _
  · exact absurd h (by simp)

theorem reweight_some_has_ext (cfg : Config) (θa : Params)
    (batch : List (Transition S d)) (w : ℝ)
    (h : reweight actorEval cfg θa batch = some w) :
    ∃ t ∈ batch, t.agent_id ≠ cfg.agent_id := by
  simp only [reweight] at h
  split at h
  · rename_i hcond
    obtain ⟨hlen, -⟩ := hcond
    rw [residualsOf, List.length_map] at hlen
    obtain ⟨t, ht⟩ := List.exists_mem_of_length_pos hlen
    obtain ⟨htb, htp⟩ := List.mem_filter.mp ht
    exact ⟨t, htb, by simpa using htp⟩
  · exact absurd h (by simp)

theorem wOf_nonneg (cfg : Config) (θa : Params)
    (batch : List (Transition S d)) (t : Transition S d) :
    0 ≤ wOf actorEval cfg θa batch t := by
  rcases hrw : reweight actorEval cfg θa batch with _ | w
  · unfold wOf
    rw [hrw]
    split
    · simp
    · exact zero_le_one
  · unfold wOf
    rw [hrw]
    split
    · simpa using (reweight_some_pos actorEval cfg θa batch w hrw).le
    · exact zero_le_one

/-! ### Claim theorems -/

/-- Claim C1: the bootstrap target value equals
reward + not_done * discount * min(targetQ1, targetQ2) with the target
critics evaluated at (next_state, next_action) and
next_action = clamp(actor_target(next_state)
  + clamp(g * policy_noise, -noise_clip, noise_clip), -max_action, max_action),
where clamp(x, lo, hi) = min(max(x, lo), hi); the twin minimum is used. -/
theorem bootstrap_target_formula (cfg : Config) (θat θct : Params)
    (t : Transition S d) (g : Fin d → ℝ) :
    targetQ actorEval criticEval cfg θat θct t g =
      t.reward + t.not_done * cfg.discount *
        min (criticEval θct t.next_state (fun i =>
              min (max (actorEval θat t.next_state i +
                  min (max (g i * cfg.policy_noise) (-cfg.noise_clip))
                    cfg.noise_clip)
                (-cfg.max_action)) cfg.max_action)).1
            (criticEval θct t.next_state (fun i =>
              min (max (actorEval θat t.next_state i +
                  min (max (g i * cfg.policy_noise) (-cfg.noise_clip))
                    cfg.noise_clip)
                (-cfg.max_action)) cfg.max_action)).2 := rfl

/-- Claim C4: the critic loss is the weighted sum of squared errors of both
heads against the target, normalized by the sum of weights, and the actor
loss is minus the weighted sum of Q1(state, policy(state)) normalized by
the same sum, both built from the same weight function applied to the same
batch and the same live-actor parameters. -/
theorem weighted_loss_formulas (cfg : Config) (θa θat θc θct θcA : Params)
    (batch : List (Transition S d)) (gs : List (Fin d → ℝ)) :
    criticLoss actorEval criticEval cfg θa θat θc θct batch gs =
      ((batch.zip gs).map (fun p =>
          wOf actorEval cfg θa batch p.1 *
            (((criticEval θc p.1.state p.1.action).1 -
                targetQ actorEval criticEval cfg θat θct p.1 p.2) ^ 2 +
             ((criticEval θc p.1.state p.1.action).2 -
                targetQ actorEval criticEval cfg θat θct p.1 p.2) ^ 2))).sum /
        (batch.map (wOf actorEval cfg θa batch)).sum ∧
    actorLoss actorEval criticEval cfg θa θcA batch =
      -(((batch.map (fun t =>
          wOf actorEval cfg θa batch t *
            (criticEval θcA t.state (actorEval θa t.state)).1)).sum) /
        (batch.map (wOf actorEval cfg θa batch)).sum) :=
  ⟨rfl, rfl⟩

/-- Claim C6: the soft sync writes tau * live + (1 - tau) * target into every
target parameter; with tau = 0 the target parameters are unchanged and with
tau = 1 they become exactly the live parameters. -/
theorem soft_sync_endpoints (tau : ℝ) (live target : List ℝ)
    (h : live.length = target.length) :
    softSync tau live target =
      List.zipWith (fun p tp => tau * p + (1 - tau) * tp) live target ∧
    softSync 0 live target = target ∧
    softSync 1 live target = live := by
  refine ⟨rfl, ?_, ?_⟩
  · have hf : (fun p tp => (0 : ℝ) * p + (1 - 0) * tp) = fun _ tp => tp := by
      funext p tp; ring
    simp only [softSync, hf]
    exact zipWith_right_of_length_eq live target h
  · have hf : (fun p tp => (1 : ℝ) * p + (1 - 1) * tp) = fun p _ => p := by
      funext p tp; ring
    simp only [softSync, hf]
    exact zipWith_left_of_length_eq live target h

/-- Witness for claim C6 at live = [2, 3], target = [4, 5], tau = 1/2. -/
theorem soft_sync_endpoints_witness :
    ([(2 : ℝ), 3].length = [(4 : ℝ), 5].length) ∧
    (softSync (1 / 2) [(2 : ℝ), 3] [(4 : ℝ), 5] =
      List.zipWith (fun p tp => (1 / 2 : ℝ) * p + (1 - 1 / 2) * tp)
        [(2 : ℝ), 3] [(4 : ℝ), 5] ∧
    softSync 0 [(2 : ℝ), 3] [(4 : ℝ), 5] = [(4 : ℝ), 5] ∧
    softSync 1 [(2 : ℝ), 3] [(4 : ℝ), 5] = [(2 : ℝ), 3]) :=
  ⟨rfl, soft_sync_endpoints (1 / 2) [2, 3] [4, 5] rfl⟩

/-- Claim C9: saving and then loading into a freshly constructed agent
restores the four blobs exactly, hence the policy and value outputs agree
on every probe input, and load rebuilds both target networks as exact
copies of the freshly loaded live networks. -/
theorem save_load_roundtrip (st fresh : AgentState) :
    (load fresh (save st)).actor = st.actor ∧
    (load fresh (save st)).actor_opt = st.actor_opt ∧
    (load fresh (save st)).critic = st.critic ∧
    (load fresh (save st)).critic_opt = st.critic_opt ∧
    (∀ x : S, actorEval (load fresh (save st)).actor x = actorEval st.actor x) ∧
    (∀ x : S, ∀ a : Fin d → ℝ,
      criticEval (load fresh (save st)).critic x a = criticEval st.critic x a) ∧
    (∀ ck : Checkpoint,
      (load fresh ck).actor_target = (load fresh ck).actor ∧
      (load fresh ck).critic_target = (load fresh ck).critic) :=
  ⟨rfl, rfl, rfl, rfl, fun _ => rfl, fun _ _ => rfl, fun _ => ⟨rfl, rfl⟩⟩

/-- Claim C8: every coordinate of the action returned by select_action lies
within the interval from -max_action to max_action, because the output
layer is a tanh scaled by max_action. -/
theorem select_action_bounded {sd ad : ℕ} (A : ActorNet sd ad)
    (h : 0 ≤ A.max_action) (s : Fin sd → ℝ) :
    ∀ i, -A.max_action ≤ selectAction A s i ∧
      selectAction A s i ≤ A.max_action := by
  intro i
  simp only [selectAction, ActorNet.forward]
  obtain ⟨h1, h2⟩ := abs_le.mp (abs_tanh_le_one
    (A.l3.apply (fun j => relu (A.l2.apply
      (fun k => relu (A.l1.apply s k)) j)) i))
  constructor
  · nlinarith
  · nlinarith

/-- Claim C2: when the reweighting computation succeeds (nonempty external
sub-batch, positive-definite empirical covariance), every external
transition gets the one shared scalar weight
exp(-(KL(empirical, reference) + KL(reference, empirical)) / 2), where the
empirical Gaussian has the sample mean of the action residuals and the
biased covariance of the centered residuals, and the reference is the
zero-mean Gaussian with covariance kl_div_var times the identity; every
self transition keeps weight 1. -/
theorem external_shared_weight (cfg : Config) (θa : Params)
    (batch : List (Transition S d))
    (h : 0 < (residualsOf actorEval cfg θa batch).length ∧
      (empCov (residualsOf actorEval cfg θa batch)).PosDef) :
    reweight actorEval cfg θa batch =
      some (Real.exp (-((klMVN (empMean (residualsOf actorEval cfg θa batch))
            (empCov (residualsOf actorEval cfg θa batch))
            (fun _ => 0) (refCov d cfg.kl_div_var) +
          klMVN (fun _ => 0) (refCov d cfg.kl_div_var)
            (empMean (residualsOf actorEval cfg θa batch))
            (empCov (residualsOf actorEval cfg θa batch))) / 2))) ∧
    (∀ t ∈ batch, t.agent_id ≠ cfg.agent_id →
      wOf actorEval cfg θa batch t =
        Real.exp (-((klMVN (empMean (residualsOf actorEval cfg θa batch))
            (empCov (residualsOf actorEval cfg θa batch))
            (fun _ => 0) (refCov d cfg.kl_div_var) +
          klMVN (fun _ => 0) (refCov d cfg.kl_div_var)
            (empMean (residualsOf actorEval cfg θa batch))
            (empCov (residualsOf actorEval cfg θa batch))) / 2))) ∧
    (∀ t ∈ batch, t.agent_id = cfg.agent_id →
      wOf actorEval cfg θa batch t = 1) := by
  have hr : reweight actorEval cfg θa batch =
      some (Real.exp (-((klMVN (empMean (residualsOf actorEval cfg θa batch))
            (empCov (residualsOf actorEval cfg θa batch))
            (fun _ => 0) (refCov d cfg.kl_div_var) +
          klMVN (fun _ => 0) (refCov d cfg.kl_div_var)
            (empMean (residualsOf actorEval cfg θa batch))
            (empCov (residualsOf actorEval cfg θa batch))) / 2))) := by
    simp only [reweight]
    rw [if_pos h]
    rfl
  refine ⟨hr, ?_, ?_⟩
  · intro t _ ht
    simp [wOf, ht, hr]
  · intro t _ ht
    simp [wOf, ht]

/-- Witness for claim C2 at a batch of two external transitions whose
residuals differ, so the one-dimensional empirical covariance is positive
definite. -/
theorem external_shared_weight_witness :
    (0 < (residualsOf probeAEv cfg0 st0.actor batchExt2).length ∧
      (empCov (residualsOf probeAEv cfg0 st0.actor batchExt2)).PosDef) ∧
    (reweight probeAEv cfg0 st0.actor batchExt2 =
      some (Real.exp (-((klMVN
            (empMean (residualsOf probeAEv cfg0 st0.actor batchExt2))
            (empCov (residualsOf probeAEv cfg0 st0.actor batchExt2))
            (fun _ => 0) (refCov 1 cfg0.kl_div_var) +
          klMVN (fun _ => 0) (refCov 1 cfg0.kl_div_var)
            (empMean (residualsOf probeAEv cfg0 st0.actor batchExt2))
            (empCov (residualsOf probeAEv cfg0 st0.actor batchExt2))) / 2))) ∧
    (∀ t ∈ batchExt2, t.agent_id ≠ cfg0.agent_id →
      wOf probeAEv cfg0 st0.actor batchExt2 t =
        Real.exp (-((klMVN
            (empMean (residualsOf probeAEv cfg0 st0.actor batchExt2))
            (empCov (residualsOf probeAEv cfg0 st0.actor batchExt2))
            (fun _ => 0) (refCov 1 cfg0.kl_div_var) +
          klMVN (fun _ => 0) (refCov 1 cfg0.kl_div_var)
            (empMean (residualsOf probeAEv cfg0 st0.actor batchExt2))
            (empCov (residualsOf probeAEv cfg0 st0.actor batchExt2))) / 2))) ∧
    (∀ t ∈ batchExt2, t.agent_id = cfg0.agent_id →
      wOf probeAEv cfg0 st0.actor batchExt2 t = 1)) := by
  have hcov : empCov (residualsOf probeAEv cfg0 st0.actor batchExt2) 0 0 = 1 := by
    norm_num [empCov, empMean, residualsOf, extList, batchExt2, probeAEv,
      cfg0, st0]
  have h : 0 < (residualsOf probeAEv cfg0 st0.actor batchExt2).length ∧
      (empCov (residualsOf probeAEv cfg0 st0.actor batchExt2)).PosDef := by
    constructor
    · norm_num [residualsOf, extList, batchExt2, cfg0]
    · rw [posDef_fin_one_iff, hcov]
      exact one_pos
  exact ⟨h, external_shared_weight probeAEv cfg0 st0.actor batchExt2 h⟩

/-- Claim C3: when the reweighting computation fails (modelled by reweight
returning none, the except branch of the source), every external transition
gets weight 0 and every self transition keeps weight 1, while the critic
step, the counter increment and the cadence-gated actor step still happen;
update is a total function, so no exception escapes. -/
theorem fallback_zero_trust (cfg : Config) (st : AgentState)
    (batch : List (Transition S d)) (gs : List (Fin d → ℝ))
    (h : reweight actorEval cfg st.actor batch = none) :
    (∀ t ∈ batch, t.agent_id ≠ cfg.agent_id →
      wOf actorEval cfg st.actor batch t = 0) ∧
    (∀ t ∈ batch, t.agent_id = cfg.agent_id →
      wOf actorEval cfg st.actor batch t = 1) ∧
    (updateParameters actorEval criticEval actorStep criticStep cfg st batch
        gs).total_it = st.total_it + 1 ∧
    (updateParameters actorEval criticEval actorStep criticStep cfg st batch
        gs).critic =
      (criticStep st.critic st.critic_opt
        (criticLoss actorEval criticEval cfg st.actor st.actor_target
          st.critic st.critic_target batch gs)).1 ∧
    (updateParameters actorEval criticEval actorStep criticStep cfg st batch
        gs).actor =
      (if (st.total_it + 1) % cfg.policy_freq = 0 then
        (actorStep st.actor st.actor_opt
          (actorLoss actorEval criticEval cfg st.actor
            (criticStep st.critic st.critic_opt
              (criticLoss actorEval criticEval cfg st.actor st.actor_target
                st.critic st.critic_target batch gs)).1 batch)).1
      else st.actor) := by
  refine ⟨?_, ?_, ?_, ?_, ?_⟩
  · intro t _ ht
    simp [wOf, h, ht]
  · intro t _ ht
    simp [wOf, ht]
  · by_cases hm : (st.total_it + 1) % cfg.policy_freq = 0
    · rw [updateParameters_eq_pos actorEval criticEval actorStep criticStep
        cfg st batch gs hm]
    · rw [updateParameters_eq_neg actorEval criticEval actorStep criticStep
        cfg st batch gs hm]
  · by_cases hm : (st.total_it + 1) % cfg.policy_freq = 0
    · rw [updateParameters_eq_pos actorEval criticEval actorStep criticStep
        cfg st batch gs hm]
    · rw [updateParameters_eq_neg actorEval criticEval actorStep criticStep
        cfg st batch gs hm]
  · by_cases hm : (st.total_it + 1) % cfg.policy_freq = 0
    · rw [updateParameters_eq_pos actorEval criticEval actorStep criticStep
        cfg st batch gs hm, if_pos hm]
    · rw [updateParameters_eq_neg actorEval criticEval actorStep criticStep
        cfg st batch gs hm, if_neg hm]

/-- Witness for claim C3 at a batch with one external transition, whose
single residual makes the empirical covariance singular. -/
theorem fallback_zero_trust_witness :
    (reweight probeAEv cfg0 st0.actor batchExt1 = none) ∧
    ((∀ t ∈ batchExt1, t.agent_id ≠ cfg0.agent_id →
      wOf probeAEv cfg0 st0.actor batchExt1 t = 0) ∧
    (∀ t ∈ batchExt1, t.agent_id = cfg0.agent_id →
      wOf probeAEv cfg0 st0.actor batchExt1 t = 1) ∧
    (updateParameters probeAEv probeCEv probeStep probeStep cfg0 st0 batchExt1
        []).total_it = st0.total_it + 1 ∧
    (updateParameters probeAEv probeCEv probeStep probeStep cfg0 st0 batchExt1
        []).critic =
      (probeStep st0.critic st0.critic_opt
        (criticLoss probeAEv probeCEv cfg0 st0.actor st0.actor_target
          st0.critic st0.critic_target batchExt1 [])).1 ∧
    (updateParameters probeAEv probeCEv probeStep probeStep cfg0 st0 batchExt1
        []).actor =
      (if (st0.total_it + 1) % cfg0.policy_freq = 0 then
        (probeStep st0.actor st0.actor_opt
          (actorLoss probeAEv probeCEv cfg0 st0.actor
            (probeStep st0.critic st0.critic_opt
              (criticLoss probeAEv probeCEv cfg0 st0.actor st0.actor_target
                st0.critic st0.critic_target batchExt1 [])).1 batchExt1)).1
      else st0.actor)) := by
  have hcov : empCov (residualsOf probeAEv cfg0 st0.actor batchExt1) 0 0 = 0 := by
    norm_num [empCov, empMean, residualsOf, extList, batchExt1, probeAEv,
      cfg0, st0]
  have hnone : reweight probeAEv cfg0 st0.actor batchExt1 = none := by
    have hx : ¬(0 < (residualsOf probeAEv cfg0 st0.actor batchExt1).length ∧
        (empCov (residualsOf probeAEv cfg0 st0.actor batchExt1)).PosDef) := by
      rintro ⟨-, hpd⟩
      rw [posDef_fin_one_iff] at hpd
      rw [hcov] at hpd
      exact lt_irrefl 0 hpd
    simp only [reweight]
    rw [if_neg hx]
  exact ⟨hnone, fallback_zero_trust probeAEv probeCEv probeStep probeStep
    cfg0 st0 batchExt1 [] hnone⟩

/-- Claim C5: the iteration counter increments by one on every update call;
when the optimizer steps and the soft sync actually move the parameters,
the actor and both target networks change exactly on the calls where the
incremented counter is divisible by policy_freq, and the critic changes on
every call. -/
theorem delayed_update_cadence (cfg : Config) (st : AgentState)
    (batch : List (Transition S d)) (gs : List (Fin d → ℝ))
    (hC : (criticStep st.critic st.critic_opt
        (criticLoss actorEval criticEval cfg st.actor st.actor_target
          st.critic st.critic_target batch gs)).1 ≠ st.critic)
    (hA : (actorStep st.actor st.actor_opt
        (actorLoss actorEval criticEval cfg st.actor
          (criticStep st.critic st.critic_opt
            (criticLoss actorEval criticEval cfg st.actor st.actor_target
              st.critic st.critic_target batch gs)).1 batch)).1 ≠ st.actor)
    (hAT : softSync cfg.tau
        (actorStep st.actor st.actor_opt
          (actorLoss actorEval criticEval cfg st.actor
            (criticStep st.critic st.critic_opt
              (criticLoss actorEval criticEval cfg st.actor st.actor_target
                st.critic st.critic_target batch gs)).1 batch)).1
        st.actor_target ≠ st.actor_target)
    (hCT : softSync cfg.tau
        (criticStep st.critic st.critic_opt
          (criticLoss actorEval criticEval cfg st.actor st.actor_target
            st.critic st.critic_target batch gs)).1
        st.critic_target ≠ st.critic_target) :
    (updateParameters actorEval criticEval actorStep criticStep cfg st batch
        gs).total_it = st.total_it + 1 ∧
    ((updateParameters actorEval criticEval actorStep criticStep cfg st batch
        gs).actor ≠ st.actor ↔ (st.total_it + 1) % cfg.policy_freq = 0) ∧
    ((updateParameters actorEval criticEval actorStep criticStep cfg st batch
        gs).actor_target ≠ st.actor_target ↔
      (st.total_it + 1) % cfg.policy_freq = 0) ∧
    ((updateParameters actorEval criticEval actorStep criticStep cfg st batch
        gs).critic_target ≠ st.critic_target ↔
      (st.total_it + 1) % cfg.policy_freq = 0) ∧
    (updateParameters actorEval criticEval actorStep criticStep cfg st batch
        gs).critic ≠ st.critic := by
  by_cases hm : (st.total_it + 1) % cfg.policy_freq = 0
  · rw [updateParameters_eq_pos actorEval criticEval actorStep criticStep
      cfg st batch gs hm]
    exact ⟨rfl, iff_of_true hA hm, iff_of_true hAT hm, iff_of_true hCT hm, hC⟩
  · rw [updateParameters_eq_neg actorEval criticEval actorStep criticStep
      cfg st batch gs hm]
    exact ⟨rfl, iff_of_false (fun hne => hne rfl) hm,
      iff_of_false (fun hne => hne rfl) hm,
      iff_of_false (fun hne => hne rfl) hm, hC⟩

/-- Witness for claim C5 at probe networks, a parameter-shifting optimizer
step, tau 1, an empty batch and a counter for which the call is a cadence
call. -/
theorem delayed_update_cadence_witness :
    ((probeStep st0.critic st0.critic_opt
        (criticLoss probeAEv probeCEv cfg0 st0.actor st0.actor_target
          st0.critic st0.critic_target [] [])).1 ≠ st0.critic) ∧
    ((probeStep st0.actor st0.actor_opt
        (actorLoss probeAEv probeCEv cfg0 st0.actor
          (probeStep st0.critic st0.critic_opt
            (criticLoss probeAEv probeCEv cfg0 st0.actor st0.actor_target
              st0.critic st0.critic_target [] [])).1 [])).1 ≠ st0.actor) ∧
    (softSync cfg0.tau
        (probeStep st0.actor st0.actor_opt
          (actorLoss probeAEv probeCEv cfg0 st0.actor
            (probeStep st0.critic st0.critic_opt
              (criticLoss probeAEv probeCEv cfg0 st0.actor st0.actor_target
                st0.critic st0.critic_target [] [])).1 [])).1
        st0.actor_target ≠ st0.actor_target) ∧
    (softSync cfg0.tau
        (probeStep st0.critic st0.critic_opt
          (criticLoss probeAEv probeCEv cfg0 st0.actor st0.actor_target
            st0.critic st0.critic_target [] [])).1
        st0.critic_target ≠ st0.critic_target) ∧
    ((updateParameters probeAEv probeCEv probeStep probeStep cfg0 st0 []
        []).total_it = st0.total_it + 1 ∧
    ((updateParameters probeAEv probeCEv probeStep probeStep cfg0 st0 []
        []).actor ≠ st0.actor ↔ (st0.total_it + 1) % cfg0.policy_freq = 0) ∧
    ((updateParameters probeAEv probeCEv probeStep probeStep cfg0 st0 []
        []).actor_target ≠ st0.actor_target ↔
      (st0.total_it + 1) % cfg0.policy_freq = 0) ∧
    ((updateParameters probeAEv probeCEv probeStep probeStep cfg0 st0 []
        []).critic_target ≠ st0.critic_target ↔
      (st0.total_it + 1) % cfg0.policy_freq = 0) ∧
    (updateParameters probeAEv probeCEv probeStep probeStep cfg0 st0 []
        []).critic ≠ st0.critic) := by
  have hC : (probeStep st0.critic st0.critic_opt
      (criticLoss probeAEv probeCEv cfg0 st0.actor st0.actor_target
        st0.critic st0.critic_target [] [])).1 ≠ st0.critic := by
    simp [probeStep, st0]
  have hA : (probeStep st0.actor st0.actor_opt
      (actorLoss probeAEv probeCEv cfg0 st0.actor
        (probeStep st0.critic st0.critic_opt
          (criticLoss probeAEv probeCEv cfg0 st0.actor st0.actor_target
            st0.critic st0.critic_target [] [])).1 [])).1 ≠ st0.actor := by
    simp [probeStep, st0]
  have hAT : softSync cfg0.tau
      (probeStep st0.actor st0.actor_opt
        (actorLoss probeAEv probeCEv cfg0 st0.actor
          (probeStep st0.critic st0.critic_opt
            (criticLoss probeAEv probeCEv cfg0 st0.actor st0.actor_target
              st0.critic st0.critic_target [] [])).1 [])).1
      st0.actor_target ≠ st0.actor_target := by
    simp [softSync, probeStep, st0, cfg0]
  have hCT : softSync cfg0.tau
      (probeStep st0.critic st0.critic_opt
        (criticLoss probeAEv probeCEv cfg0 st0.actor st0.actor_target
          st0.critic st0.critic_target [] [])).1
      st0.critic_target ≠ st0.critic_target := by
    simp [softSync, probeStep, st0, cfg0]
  exact ⟨hC, hA, hAT, hCT,
    delayed_update_cadence probeAEv probeCEv probeStep probeStep cfg0 st0
      [] [] hC hA hAT hCT⟩

/-- Witness for claim C8 at the probe actor and the zero state. -/
theorem select_action_bounded_witness :
    (0 : ℝ) ≤ probeActor.max_action ∧
    ∀ i, -probeActor.max_action ≤ selectAction probeActor (fun _ => 0) i ∧
      selectAction probeActor (fun _ => 0) i ≤ probeActor.max_action :=
  ⟨zero_le_one, select_action_bounded probeActor zero_le_one (fun _ => 0)⟩

/-- Claim C7: when no transition of the batch is external, every weight is 1
and the critic and actor losses reduce to the unweighted means of their
per-transition terms. -/
theorem no_external_unweighted (cfg : Config) (θa θat θc θct : Params)
    (batch : List (Transition S d)) (gs : List (Fin d → ℝ))
    (h : ∀ t ∈ batch, t.agent_id = cfg.agent_id) :
    (∀ t ∈ batch, wOf actorEval cfg θa batch t = 1) ∧
    criticLoss actorEval criticEval cfg θa θat θc θct batch gs =
      ((batch.zip gs).map (fun p =>
          ((criticEval θc p.1.state p.1.action).1 -
              targetQ actorEval criticEval cfg θat θct p.1 p.2) ^ 2 +
          ((criticEval θc p.1.state p.1.action).2 -
              targetQ actorEval criticEval cfg θat θct p.1 p.2) ^ 2)).sum /
        (batch.length : ℝ) ∧
    actorLoss actorEval criticEval cfg θa θc batch =
      -(((batch.map (fun t =>
          (criticEval θc t.state (actorEval θa t.state)).1)).sum) /
        (batch.length : ℝ)) := by
  have hw : ∀ t ∈ batch, wOf actorEval cfg θa batch t = 1 := by
    intro t ht
    simp [wOf, h t ht]
  have hsum : sumW actorEval cfg θa batch = (batch.length : ℝ) := by
    unfold sumW weightVec
    rw [List.map_congr_left hw, List.map_const', List.sum_replicate]
    simp
  refine ⟨hw, ?_, ?_⟩
  · unfold criticLoss
    rw [hsum]
    have hmap : (batch.zip gs).map (fun p =>
        wOf actorEval cfg θa batch p.1 *
          (((criticEval θc p.1.state p.1.action).1 -
              targetQ actorEval criticEval cfg θat θct p.1 p.2) ^ 2 +
           ((criticEval θc p.1.state p.1.action).2 -
              targetQ actorEval criticEval cfg θat θct p.1 p.2) ^ 2)) =
        (batch.zip gs).map (fun p =>
          ((criticEval θc p.1.state p.1.action).1 -
              targetQ actorEval criticEval cfg θat θct p.1 p.2) ^ 2 +
          ((criticEval θc p.1.state p.1.action).2 -
              targetQ actorEval criticEval cfg θat θct p.1 p.2) ^ 2) :=
      List.map_congr_left (fun p hp => by
        rw [hw p.1 (List.of_mem_zip hp).1, one_mul])
    rw [hmap]
  · unfold actorLoss
    rw [hsum]
    have hmap : batch.map (fun t =>
        wOf actorEval cfg θa batch t *
          criticQ1 criticEval θc t.state (actorEval θa t.state)) =
        batch.map (fun t =>
          (criticEval θc t.state (actorEval θa t.state)).1) :=
      List.map_congr_left (fun t ht => by
        rw [hw t ht, one_mul]
        rfl)
    rw [hmap]

/-- Witness for claim C7 at a batch with a single self transition. -/
theorem no_external_unweighted_witness :
    (∀ t ∈ batchSelf, t.agent_id = cfg0.agent_id) ∧
    ((∀ t ∈ batchSelf, wOf probeAEv cfg0 st0.actor batchSelf t = 1) ∧
    criticLoss probeAEv probeCEv cfg0 st0.actor st0.actor_target st0.critic
        st0.critic_target batchSelf [] =
      ((batchSelf.zip ([] : List (Fin 1 → ℝ))).map (fun p =>
          ((probeCEv st0.critic p.1.state p.1.action).1 -
              targetQ probeAEv probeCEv cfg0 st0.actor_target
                st0.critic_target p.1 p.2) ^ 2 +
          ((probeCEv st0.critic p.1.state p.1.action).2 -
              targetQ probeAEv probeCEv cfg0 st0.actor_target
                st0.critic_target p.1 p.2) ^ 2)).sum /
        (batchSelf.length : ℝ) ∧
    actorLoss probeAEv probeCEv cfg0 st0.actor st0.critic batchSelf =
      -(((batchSelf.map (fun t =>
          (probeCEv st0.critic t.state (probeAEv st0.actor t.state)).1)).sum) /
        (batchSelf.length : ℝ))) := by
  have h : ∀ t ∈ batchSelf, t.agent_id = cfg0.agent_id := by
    intro t ht
    rw [batchSelf, List.mem_singleton] at ht
    subst ht
    rfl
  exact ⟨h, no_external_unweighted probeAEv probeCEv cfg0 st0.actor
    st0.actor_target st0.critic st0.critic_target batchSelf [] h⟩

/-- Claim C10: the sum of weights dividing both losses is nonnegative, and
it is strictly positive exactly when some transition is self or the
reweighting computation succeeds; in particular for an all-external batch
on which the fallback fires the divisor is 0 and the loss quotient is the
degenerate 0 / 0. -/
theorem sum_weights_characterization (cfg : Config) (θa : Params)
    (batch : List (Transition S d)) :
    0 ≤ sumW actorEval cfg θa batch ∧
    (0 < sumW actorEval cfg θa batch ↔
      (∃ t ∈ batch, t.agent_id = cfg.agent_id) ∨
        (reweight actorEval cfg θa batch).isSome = true) := by
  have hnn : ∀ t ∈ batch, 0 ≤ wOf actorEval cfg θa batch t :=
    fun t _ => wOf_nonneg actorEval cfg θa batch t
  have hsum : sumW actorEval cfg θa batch =
      (batch.map (wOf actorEval cfg θa batch)).sum := rfl
  constructor
  · rw [hsum]
    apply List.sum_nonneg
    intro y hy
    obtain ⟨a, ha, rfl⟩ := List.mem_map.mp hy
    exact wOf_nonneg actorEval cfg θa batch a
  · rw [hsum, sum_map_pos_iff _ _ hnn]
    constructor
    · rintro ⟨t, ht, hpos⟩
      by_cases hid : t.agent_id = cfg.agent_id
      · exact Or.inl ⟨t, ht, hid⟩
      · right
        rcases hrw : reweight actorEval cfg θa batch with _ | w
        · exfalso
          unfold wOf at hpos
          rw [hrw] at hpos
          simp [hid] at hpos
        · simp [hrw]
    · rintro (⟨t, ht, hid⟩ | hsome)
      · refine ⟨t, ht, ?_⟩
        have hone : wOf actorEval cfg θa batch t = 1 := by simp [wOf, hid]
        rw [hone]
        exact one_pos
      · obtain ⟨w, hw⟩ := Option.isSome_iff_exists.mp hsome
        obtain ⟨t, ht, hid⟩ :=
          reweight_some_has_ext actorEval cfg θa batch w hw
        refine ⟨t, ht, ?_⟩
        have hv : wOf actorEval cfg θa batch t = w := by
          simp [wOf, hid, hw]
        rw [hv]
        exact reweight_some_pos actorEval cfg θa batch w hw

end

end CASE
